import Mathlib

/-!
Verification of the msvbp2edl timeline-to-EDL converter.

The repository holds two copies of the same core logic: a timecode encoder
(the function named with a leading underscore and the suffix nano100_to_time
in both files) and a timeline converter (the function with suffix convert).
src/main.py fixes the frame rate to the module constant FRAME_RATE = 30,
while src/ms_photos.py reads it from the MsPhotosDb constructor (default 30).
Both copies are embedded here once, parametrised by frame_rate.

The converter walks the list of cards of the parsed project, emits four text
lines per card, and finally writes the joined lines to the output file.  The
file write is external glue; the embedding returns the list of lines, and a
Python exception raised while walking the cards (before the write) is
modelled as an Except.error result, in which case no lines are produced.
-/

namespace Msvbp2edl

/-- Models the Python format spec of zero-padding to width w (as in the
format strings with 02 and 03) for a natural number: left-pad the decimal
representation with zeros to width w. -/
def zeroPadNat (w : Nat) (n : Nat) : String :=
  let s := toString n
  String.mk (List.replicate (w - s.length) '0') ++ s

/-- Models the same Python zero-padding for an integer: for a negative value
the sign comes first and the zeros are inserted after it. -/
def zfill (w : Nat) (n : Int) : String :=
  if n < 0 then "-" ++ zeroPadNat (w - 1) (-n).toNat else zeroPadNat w n.toNat

/-- Models Python str(datetime.timedelta(seconds=s)) for an integer second
count (no microseconds): the value is normalised to days plus a non-negative
remainder below 86400 seconds, printed as h:mm:ss (hours not padded), with a
prefix of the day count when days is non-zero, singular exactly when the
absolute value of days is one. -/
def timedeltaStr (s : Int) : String :=
  let days := Int.fdiv s 86400
  let rem := (Int.emod s 86400).toNat
  let h := rem / 3600
  let m := rem % 3600 / 60
  let sec := rem % 60
  let hms := toString h ++ ":" ++ zeroPadNat 2 m ++ ":" ++ zeroPadNat 2 sec
  if days = 0 then hms
  else toString days ++ (if days = 1 ∨ days = -1 then " day, " else " days, ") ++ hms

/-- Embeds the timecode encoder (src/main.py lines 29-42, src/ms_photos.py
lines 17-30): ret is str(timedelta(seconds=nanos // ns)) with ns = 10^7,
prefixed with one zero when shorter than 8 characters, followed by the frame
field int(frame_rate * modf(nanos / ns)[0]) zero-padded to two digits.
The Python frame computation goes through IEEE doubles; it is modelled in
exact arithmetic: the fractional part of nanos / ns truncated towards zero is
Int.tmod nanos ns over ns, and the int(...) conversion truncates towards zero
again, giving Int.tdiv (frame_rate * Int.tmod nanos ns) ns. -/
def nano100_to_time (frame_rate : Nat) (nanos : Int) : String :=
  let ns : Int := 10000000
  let ret := timedeltaStr (Int.fdiv nanos ns)
  let ret2 := if ret.length < 8 then "0" ++ ret else ret
  let frame := Int.tdiv ((frame_rate : Int) * Int.tmod nanos ns) ns
  ret2 ++ ":" ++ zfill 2 frame

instance {ε α : Type} [DecidableEq ε] [DecidableEq α] : DecidableEq (Except ε α) := fun a b =>
  match a, b with
  | .error x, .error y =>
    if h : x = y then .isTrue (by rw [h]) else .isFalse (by simp [h])
  | .error _, .ok _ => .isFalse (by simp)
  | .ok _, .error _ => .isFalse (by simp)
  | .ok x, .ok y =>
    if h : x = y then .isTrue (by rw [h]) else .isFalse (by simp [h])

/-- One element of the Sources list of a timeline card.  In the source each
card is a parsed JSON dictionary; a field whose lookup chain can fail with
KeyError is modelled as an Option (none standing for any missing key on the
chain down to the value). -/
structure Source where
  url : Option String
  idealAssetStartTime : Option Int
deriving DecidableEq

/-- A timeline card as read by the conversion loop: the Sources list and the
idealDuration field.  An absent or empty Sources list makes the index [0]
fail, modelled by the empty list. -/
structure Card where
  Sources : List Source
  idealDuration : Option Int
deriving DecidableEq

/-- The dictionary/list access failures the conversion loop can raise. -/
inductive PyError where
  | keyError (key : String)
  | indexError
deriving DecidableEq

/-- The three reads at the top of the loop body of the converter
(src/main.py lines 57-64, src/ms_photos.py lines 46-53), in source order:
Sources[0] (IndexError when absent), then the url, the idealAssetStartTime
and the idealDuration lookups (KeyError when a key is missing). -/
def readCard (c : Card) : Except PyError (String × Int × Int) :=
  match c.Sources with
  | [] => .error .indexError
  | s :: _ =>
    match s.url with
    | none => .error (.keyError "url")
    | some source_path =>
      match s.idealAssetStartTime with
      | none => .error (.keyError "idealAssetStartTime")
      | some start_time_raw =>
        match c.idealDuration with
        | none => .error (.keyError "idealDuration")
        | some duration_raw => .ok (source_path, start_time_raw, duration_raw)

/-- The loop of the converter (src/main.py lines 57-76, src/ms_photos.py
lines 46-65), with the running index, the running record position
master_time, and the remaining cards as arguments: per card it appends the
video event line, the audio event line, the clip-name comment and a blank
line, then advances index by one and master_time by the card's duration. -/
def convertBody (frame_rate : Nat) (index : Nat) (master_time : Int) :
    List Card → Except PyError (List String)
  | [] => .ok []
  | card :: rest =>
    match readCard card with
    | .error e => .error e
    | .ok (source_path, start_time_raw, duration_raw) =>
      let times := nano100_to_time frame_rate start_time_raw ++ " " ++
        nano100_to_time frame_rate (start_time_raw + duration_raw) ++ " " ++
        nano100_to_time frame_rate master_time ++ " " ++
        nano100_to_time frame_rate (master_time + duration_raw)
      match convertBody frame_rate (index + 1) (master_time + duration_raw) rest with
      | .error e => .error e
      | .ok tail =>
        .ok ((zeroPadNat 3 index ++ "  AX  V  C  " ++ times)
          :: (zeroPadNat 3 index ++ "  AX  A  C  " ++ times)
          :: ("* FROM CLIP NAME: " ++ source_path)
          :: "" :: tail)

/-- Embeds the converter (src/main.py lines 45-79, src/ms_photos.py lines
32-68): the three header lines, then the loop with index starting at 1 and
master_time initialised to the frame-rate value itself. -/
def convert (frame_rate : Nat) (project_name : String) (cards : List Card) :
    Except PyError (List String) :=
  match convertBody frame_rate 1 (frame_rate : Int) cards with
  | .error e => .error e
  | .ok body =>
    .ok (("TITLE: " ++ project_name) :: "FCM: NON-DROP FRAME" :: "" :: body)

/-- The spec's Timeline Entry: one well-formed cut, carrying a source path, a
source-relative start offset and a duration in 100ns ticks. -/
structure Entry where
  source_path : String
  source_start_ticks : Int
  duration_ticks : Int
deriving DecidableEq

/-- The card holding exactly the data of a well-formed Timeline Entry. -/
def entryCard (e : Entry) : Card :=
  { Sources := [{ url := some e.source_path,
                  idealAssetStartTime := some e.source_start_ticks }],
    idealDuration := some e.duration_ticks }

/-- Total duration of a list of entries, in ticks. -/
def sumDur (es : List Entry) : Int := (es.map Entry.duration_ticks).sum

/-- The record-position accumulator value before the entry of index k
(0-based): the initial seed (the frame-rate value itself) plus the durations
of the first k entries. -/
def recordPosBefore (frame_rate : Nat) (es : List Entry) (k : Nat) : Int :=
  (frame_rate : Int) + sumDur (es.take k)

/-- The four space-separated timecodes of an event line, for an entry
converted while the record position is m. -/
def eventTimes (frame_rate : Nat) (m : Int) (e : Entry) : String :=
  nano100_to_time frame_rate e.source_start_ticks ++ " " ++
  nano100_to_time frame_rate (e.source_start_ticks + e.duration_ticks) ++ " " ++
  nano100_to_time frame_rate m ++ " " ++
  nano100_to_time frame_rate (m + e.duration_ticks)

/-- Closed form of the lines the loop produces on well-formed entries,
starting at event index i and record position m. -/
def blocks (frame_rate : Nat) (i : Nat) (m : Int) : List Entry → List String
  | [] => []
  | e :: rest =>
    (zeroPadNat 3 i ++ "  AX  V  C  " ++ eventTimes frame_rate m e)
    :: (zeroPadNat 3 i ++ "  AX  A  C  " ++ eventTimes frame_rate m e)
    :: ("* FROM CLIP NAME: " ++ e.source_path)
    :: "" :: blocks frame_rate (i + 1) (m + e.duration_ticks) rest

/-- Decides whether a string matches the timecode pattern of two-or-more
digits, a colon, then three colon-separated two-digit groups, anchored at
both ends (the regex of digits 2-or-more, colon, digits 2, colon, digits 2,
colon, digits 2). -/
def matchesTimecodePattern (s : String) : Bool :=
  let cs := s.toList
  let ds := cs.takeWhile Char.isDigit
  match cs.dropWhile Char.isDigit with
  | a :: b1 :: b2 :: c :: c1 :: c2 :: d :: d1 :: d2 :: [] =>
    decide (2 ≤ ds.length) && decide (a = ':') && b1.isDigit && b2.isDigit &&
      decide (c = ':') && c1.isDigit && c2.isDigit &&
      decide (d = ':') && d1.isDigit && d2.isDigit
  | _ => false

theorem readCard_entryCard (e : Entry) :
    readCard (entryCard e) = .ok (e.source_path, e.source_start_ticks, e.duration_ticks) := rfl

theorem convertBody_entries (fr : Nat) :
    ∀ (es : List Entry) (i : Nat) (m : Int),
      convertBody fr i m (es.map entryCard) = .ok (blocks fr i m es)
  | [], _, _ => rfl
  | e :: rest, i, m => by
    simp only [List.map_cons, convertBody, readCard_entryCard,
      convertBody_entries fr rest (i + 1) (m + e.duration_ticks), blocks, eventTimes]

theorem convert_entries (fr : Nat) (name : String) (es : List Entry) :
    convert fr name (es.map entryCard) =
      .ok (("TITLE: " ++ name) :: "FCM: NON-DROP FRAME" :: "" :: blocks fr 1 fr es) := by
  simp only [convert, convertBody_entries]

theorem blocks_length (fr : Nat) :
    ∀ (es : List Entry) (i : Nat) (m : Int), (blocks fr i m es).length = 4 * es.length
  | [], _, _ => rfl
  | e :: rest, i, m => by
    simp only [blocks, List.length_cons,
      blocks_length fr rest (i + 1) (m + e.duration_ticks)]
    omega

theorem getElem?_cons4 {α : Type} (a b c d : α) (l : List α) (n : Nat) :
    (a :: b :: c :: d :: l)[n + 4]? = l[n]? := by
  show (a :: b :: c :: d :: l)[n + 1 + 1 + 1 + 1]? = l[n]?
  simp only [List.getElem?_cons_succ]

theorem getElem?_cons3 {α : Type} (a b c : α) (l : List α) (n : Nat) :
    (a :: b :: c :: l)[n + 3]? = l[n]? := by
  show (a :: b :: c :: l)[n + 1 + 1 + 1]? = l[n]?
  simp only [List.getElem?_cons_succ]

theorem blocks_get (fr : Nat) (e : Entry) :
    ∀ (pre post : List Entry) (i : Nat) (m : Int),
      (blocks fr i m (pre ++ e :: post))[4 * pre.length]? =
        some (zeroPadNat 3 (i + pre.length) ++ "  AX  V  C  " ++
          eventTimes fr (m + sumDur pre) e)
  | [], post, i, m => by
    simp [blocks, sumDur]
  | p :: pre, post, i, m => by
    have ih := blocks_get fr e pre post (i + 1) (m + p.duration_ticks)
    have hidx : 4 * (p :: pre).length = 4 * pre.length + 4 := by
      simp only [List.length_cons]; omega
    have h1 : i + (p :: pre).length = i + 1 + pre.length := by
      simp only [List.length_cons]; omega
    have h2 : m + sumDur (p :: pre) = m + p.duration_ticks + sumDur pre := by
      simp only [sumDur, List.map_cons, List.sum_cons]; ring
    rw [List.cons_append]
    simp only [blocks]
    rw [hidx, getElem?_cons4, h1, h2]
    exact ih

theorem take_len_append (pre : List Entry) (e : Entry) (post : List Entry) :
    (pre ++ e :: post).take (pre.length + 1) = pre ++ [e] := by
  induction pre with
  | nil => simp
  | cons p pre ih => simp [ih]

theorem recordPosBefore_at (fr : Nat) (pre : List Entry) (e : Entry) (post : List Entry) :
    recordPosBefore fr (pre ++ e :: post) pre.length = (fr : Int) + sumDur pre := by
  simp [recordPosBefore, List.take_left]

theorem recordPosBefore_succ_at (fr : Nat) (pre : List Entry) (e : Entry)
    (post : List Entry) :
    recordPosBefore fr (pre ++ e :: post) (pre.length + 1) =
      recordPosBefore fr (pre ++ e :: post) pre.length + e.duration_ticks := by
  rw [recordPosBefore_at, recordPosBefore, take_len_append]
  simp only [sumDur, List.map_append, List.sum_append, List.map_cons,
    List.map_nil, List.sum_cons, List.sum_nil]
  ring

/-- C1: for entries with durations d1..dn, the record-in timecode of the
event emitted for the entry at 0-based position k (the (k+1)-st event) is
the encoding of the initial record position plus the sum of the first k
durations, and the record position before entry k+1 equals the position
before entry k plus that entry's duration_ticks. -/
theorem C1_record_position_accumulation (fr : Nat) (name : String)
    (pre : List Entry) (e : Entry) (post : List Entry) :
    ∃ out, convert fr name ((pre ++ e :: post).map entryCard) = .ok out ∧
      out[3 + 4 * pre.length]? = some
        (zeroPadNat 3 (pre.length + 1) ++ "  AX  V  C  " ++
          nano100_to_time fr e.source_start_ticks ++ " " ++
          nano100_to_time fr (e.source_start_ticks + e.duration_ticks) ++ " " ++
          nano100_to_time fr (recordPosBefore fr (pre ++ e :: post) pre.length) ++ " " ++
          nano100_to_time fr
            (recordPosBefore fr (pre ++ e :: post) pre.length + e.duration_ticks)) ∧
      recordPosBefore fr (pre ++ e :: post) (pre.length + 1) =
        recordPosBefore fr (pre ++ e :: post) pre.length + e.duration_ticks := by
  refine ⟨_, convert_entries fr name _, ?_, recordPosBefore_succ_at fr pre e post⟩
  have hidx : 3 + 4 * pre.length = 4 * pre.length + 3 := by omega
  rw [hidx, getElem?_cons3, blocks_get, recordPosBefore_at]
  simp only [eventTimes, Nat.add_comm 1 pre.length, String.append_assoc]

/-- C2: the converter initialises the record-position accumulator to the
literal numeric value of the configured frame rate, used directly as a tick
count, so the first event's record-in timecode is the encoding of the
frame-rate value itself (and its record-out the encoding of that value plus
the first duration). -/
theorem C2_initial_record_position_is_frame_rate (fr : Nat) (name : String)
    (e : Entry) (rest : List Entry) :
    ∃ out, convert fr name ((e :: rest).map entryCard) = .ok out ∧
      out[3]? = some (zeroPadNat 3 1 ++ "  AX  V  C  " ++
        nano100_to_time fr e.source_start_ticks ++ " " ++
        nano100_to_time fr (e.source_start_ticks + e.duration_ticks) ++ " " ++
        nano100_to_time fr (fr : Int) ++ " " ++
        nano100_to_time fr ((fr : Int) + e.duration_ticks)) := by
  refine ⟨_, convert_entries fr name _, ?_⟩
  show some (zeroPadNat 3 1 ++ "  AX  V  C  " ++ eventTimes fr (fr : Int) e) = _
  simp only [eventTimes, String.append_assoc]

/-- C3 counterexample: at frame rate 1000, one frame is 10000 ticks, whose
encoding is 00:00:00:01; but the conversion of a single zero-duration entry
emits 00:00:00:00 as the first record-in timecode, the encoding of the
frame-rate value 1000 used directly as ticks, so the counter does not start
at one frame's worth of ticks. -/
theorem C3_counterexample :
    convert 1000 "T"
        [entryCard { source_path := "a", source_start_ticks := 0, duration_ticks := 0 }] =
      .ok ["TITLE: T", "FCM: NON-DROP FRAME", "",
        "001  AX  V  C  00:00:00:00 00:00:00:00 00:00:00:00 00:00:00:00",
        "001  AX  A  C  00:00:00:00 00:00:00:00 00:00:00:00 00:00:00:00",
        "* FROM CLIP NAME: a", ""] ∧
      nano100_to_time 1000 ((10000000 : Int) / 1000) = "00:00:00:01" ∧
      nano100_to_time 1000 1000 = "00:00:00:00" := by decide

/-- C3 amended: before the first entry the record-position counter holds the
literal frame-rate value used directly as a tick count (in general not one
frame's worth of ticks), and after each entry it equals its value before the
entry plus that entry's duration_ticks; the record-in and record-out
timecodes of each event are the encodings of that counter. -/
theorem C3_amended_initial_record_position (fr : Nat) (name : String)
    (pre : List Entry) (e : Entry) (post : List Entry) :
    recordPosBefore fr (pre ++ e :: post) 0 = (fr : Int) ∧
    recordPosBefore fr (pre ++ e :: post) (pre.length + 1) =
      recordPosBefore fr (pre ++ e :: post) pre.length + e.duration_ticks ∧
    (∃ out, convert fr name ((pre ++ e :: post).map entryCard) = .ok out ∧
      out[3 + 4 * pre.length]? = some
        (zeroPadNat 3 (pre.length + 1) ++ "  AX  V  C  " ++
          eventTimes fr (recordPosBefore fr (pre ++ e :: post) pre.length) e)) := by
  refine ⟨by simp [recordPosBefore, sumDur], recordPosBefore_succ_at fr pre e post,
    _, convert_entries fr name _, ?_⟩
  have hidx : 3 + 4 * pre.length = 4 * pre.length + 3 := by omega
  rw [hidx, getElem?_cons3, blocks_get, recordPosBefore_at, Nat.add_comm 1 pre.length]

/-- C4: converting N well-formed entries yields exactly 3 + 4N lines, the
first three being the title line, the non-drop-frame line and a blank line
(and nothing else when N = 0), and the event at 0-based position k carries
the 1-based index k+1 zero-padded to three digits. -/
theorem C4_line_count_and_event_indices (fr : Nat) (name : String) (es : List Entry) :
    ∃ out, convert fr name (es.map entryCard) = .ok out ∧
      out.length = 3 + 4 * es.length ∧
      out.take 3 = ["TITLE: " ++ name, "FCM: NON-DROP FRAME", ""] ∧
      (es = [] → out = ["TITLE: " ++ name, "FCM: NON-DROP FRAME", ""]) ∧
      (∀ pre e post, es = pre ++ e :: post →
        out[3 + 4 * pre.length]? = some
          (zeroPadNat 3 (pre.length + 1) ++ "  AX  V  C  " ++
            eventTimes fr (recordPosBefore fr es pre.length) e)) := by
  refine ⟨_, convert_entries fr name es, ?_, rfl, ?_, ?_⟩
  · simp only [List.length_cons, blocks_length fr es 1 (fr : Int)]
    omega
  · rintro rfl; rfl
  · rintro pre e post rfl
    have hidx : 3 + 4 * pre.length = 4 * pre.length + 3 := by omega
    rw [hidx, getElem?_cons3, blocks_get, recordPosBefore_at, Nat.add_comm 1 pre.length]

/-- The single one-second entry of the spec's worked example. -/
def demoEntry : Entry :=
  { source_path := "a", source_start_ticks := 0, duration_ticks := 10000000 }

/-- Witness for C4 at a concrete single-entry project. -/
theorem C4_line_count_witness :
    ∃ out, convert 30 "Demo" ([demoEntry].map entryCard) = .ok out ∧
      out.length = 7 ∧
      out[3]? = some "001  AX  V  C  00:00:00:00 00:00:01:00 00:00:00:00 00:00:01:00" := by
  obtain ⟨out, h1, h2, _, _, h5⟩ := C4_line_count_and_event_indices 30 "Demo" [demoEntry]
  refine ⟨out, h1, by simpa using h2, ?_⟩
  have h := h5 [] demoEntry [] rfl
  have hs : zeroPadNat 3 ((List.length ([] : List Entry)) + 1) ++ "  AX  V  C  " ++
      eventTimes 30 (recordPosBefore 30 [demoEntry] (List.length ([] : List Entry)))
        demoEntry =
      "001  AX  V  C  00:00:00:00 00:00:01:00 00:00:00:00 00:00:01:00" := by decide
  rw [hs] at h
  simpa using h

theorem convertBody_error (fr : Nat) (c : Card) (post : List Card) (err : PyError)
    (h : readCard c = .error err) :
    ∀ (pre : List Entry) (i : Nat) (m : Int),
      convertBody fr i m (pre.map entryCard ++ c :: post) = .error err
  | [], i, m => by
    simp only [List.map_nil, List.nil_append, convertBody, h]
  | e :: pre, i, m => by
    simp only [List.map_cons, List.cons_append, convertBody, readCard_entryCard,
      List.append_eq,
      convertBody_error fr c post err h pre (i + 1) (m + e.duration_ticks)]

/-- C8 counterexample: an entry carrying a negative duration and all its
fields is not rejected; the conversion succeeds and produces a full document
(with the negative source-out time rendered through the day-carrying
timedelta format). -/
theorem C8_counterexample :
    convert 30 "T"
        [entryCard { source_path := "a", source_start_ticks := 0, duration_ticks := -1 }] =
      .ok ["TITLE: T", "FCM: NON-DROP FRAME", "",
        "001  AX  V  C  00:00:00:00 -1 day, 23:59:59:00 00:00:00:00 00:00:00:00",
        "001  AX  A  C  00:00:00:00 -1 day, 23:59:59:00 00:00:00:00 00:00:00:00",
        "* FROM CLIP NAME: a", ""] := by decide

/-- C8 amended: an entry whose first source, source path, start tick count or
duration is missing makes the conversion fail on the first such entry with
the corresponding lookup error, whatever follows it, and no lines at all are
produced; negative tick values, however, are not rejected. -/
theorem C8_amended_missing_fields_fail_fast (fr : Nat) (name : String)
    (pre : List Entry) (c : Card) (post : List Card) (err : PyError)
    (h : readCard c = .error err) :
    convert fr name (pre.map entryCard ++ c :: post) = .error err := by
  unfold convert
  rw [convertBody_error fr c post err h pre 1 (fr : Int)]

/-- Witness for C8 amended: a card with no sources fails with the index
error and yields no output. -/
theorem C8_amended_witness :
    readCard { Sources := [], idealDuration := some 5 } = .error .indexError ∧
    convert 30 "T" [{ Sources := [], idealDuration := some 5 }] = .error .indexError :=
  ⟨rfl, C8_amended_missing_fields_fail_fast 30 "T" []
    { Sources := [], idealDuration := some 5 } [] .indexError rfl⟩

theorem convertBody_congr (fr : Nat) (c1 c2 : Card) (post : List Card)
    (h : readCard c1 = readCard c2) :
    ∀ (pre : List Card) (i : Nat) (m : Int),
      convertBody fr i m (pre ++ c1 :: post) = convertBody fr i m (pre ++ c2 :: post)
  | [], i, m => by
    simp only [List.nil_append, convertBody, h]
  | p :: pre, i, m => by
    simp only [List.cons_append, convertBody]
    cases hp : readCard p with
    | error e => rfl
    | ok v =>
      obtain ⟨sp, st, d⟩ := v
      dsimp only
      simp only [List.append_eq]
      rw [convertBody_congr fr c1 c2 post h pre (i + 1) (m + d)]

/-- C9: the conversion reads only the first media source of each card:
replacing the list of extra sources beyond the first by any other list (in
particular removing them) leaves the whole result unchanged. -/
theorem C9_only_first_source_read (fr : Nat) (name : String) (pre : List Card)
    (s : Source) (extra extra2 : List Source) (dur : Option Int) (post : List Card) :
    convert fr name (pre ++ { Sources := s :: extra, idealDuration := dur } :: post) =
      convert fr name (pre ++ { Sources := s :: extra2, idealDuration := dur } :: post) := by
  unfold convert
  rw [convertBody_congr fr { Sources := s :: extra, idealDuration := dur }
    { Sources := s :: extra2, idealDuration := dur } post rfl pre 1 (fr : Int)]

theorem map_take_append {α β : Type} (f : α → β) (pre : List α) (x : α) (post : List α) :
    ((pre ++ x :: post).map f).take pre.length = pre.map f := by
  induction pre with
  | nil => simp
  | cons p pre ih => simp [ih]

theorem map_nth_append {α β : Type} (f : α → β) (pre : List α) (x : α) (post : List α) :
    ((pre ++ x :: post).map f)[pre.length]? = some (f x) := by
  induction pre with
  | nil => simp
  | cons p pre ih => simpa using ih

/-- C10: the record-in and record-out timecodes and the event index of every
emitted event depend only on the frame rate and on the duration_ticks of the
entries: two entry lists with pointwise equal durations yield, at each
position, event lines carrying the same index and the same record-in and
record-out encodings (only the source fields differ). -/
theorem C10_record_times_only_from_durations (fr : Nat) (name name2 : String)
    (pre : List Entry) (e : Entry) (post : List Entry)
    (pre2 : List Entry) (e2 : Entry) (post2 : List Entry)
    (hlen : pre.length = pre2.length)
    (hdur : (pre ++ e :: post).map Entry.duration_ticks =
      (pre2 ++ e2 :: post2).map Entry.duration_ticks) :
    ∃ out out2,
      convert fr name ((pre ++ e :: post).map entryCard) = .ok out ∧
      convert fr name2 ((pre2 ++ e2 :: post2).map entryCard) = .ok out2 ∧
      out[3 + 4 * pre.length]? = some
        (zeroPadNat 3 (pre.length + 1) ++ "  AX  V  C  " ++
          nano100_to_time fr e.source_start_ticks ++ " " ++
          nano100_to_time fr (e.source_start_ticks + e.duration_ticks) ++ " " ++
          nano100_to_time fr (recordPosBefore fr (pre ++ e :: post) pre.length) ++ " " ++
          nano100_to_time fr
            (recordPosBefore fr (pre ++ e :: post) pre.length + e.duration_ticks)) ∧
      out2[3 + 4 * pre2.length]? = some
        (zeroPadNat 3 (pre.length + 1) ++ "  AX  V  C  " ++
          nano100_to_time fr e2.source_start_ticks ++ " " ++
          nano100_to_time fr (e2.source_start_ticks + e2.duration_ticks) ++ " " ++
          nano100_to_time fr (recordPosBefore fr (pre ++ e :: post) pre.length) ++ " " ++
          nano100_to_time fr
            (recordPosBefore fr (pre ++ e :: post) pre.length + e.duration_ticks)) := by
  have hpre : pre.map Entry.duration_ticks = pre2.map Entry.duration_ticks := by
    have h1 := congrArg (List.take pre.length) hdur
    rw [map_take_append, hlen, map_take_append] at h1
    exact h1
  have hd : e.duration_ticks = e2.duration_ticks := by
    have h1 := congrArg (fun l => l[pre.length]?) hdur
    simp only at h1
    rw [map_nth_append, hlen, map_nth_append] at h1
    exact Option.some_injective _ h1
  have hsum : sumDur pre = sumDur pre2 := by
    simp only [sumDur, hpre]
  refine ⟨_, _, convert_entries fr name _, convert_entries fr name2 _, ?_, ?_⟩
  · have hidx : 3 + 4 * pre.length = 4 * pre.length + 3 := by omega
    rw [hidx, getElem?_cons3, blocks_get, recordPosBefore_at]
    simp only [eventTimes, Nat.add_comm 1 pre.length, String.append_assoc]
  · have hidx : 3 + 4 * pre2.length = 4 * pre2.length + 3 := by omega
    rw [hidx, getElem?_cons3, blocks_get, recordPosBefore_at]
    simp only [eventTimes, Nat.add_comm 1 pre2.length, String.append_assoc, hlen,
      hsum, hd]

/-- First concrete entry for the C10 witness. -/
def entryA : Entry := { source_path := "a", source_start_ticks := 5, duration_ticks := 7 }

/-- Second concrete entry for the C10 witness: same duration as entryA,
different source path and start time. -/
def entryB : Entry := { source_path := "b", source_start_ticks := 9, duration_ticks := 7 }

/-- Witness for C10: two single-entry projects with equal durations but
different source paths and start times produce the same record timecodes. -/
theorem C10_record_times_witness :
    ∃ out out2,
      convert 30 "A" ([entryA].map entryCard) = .ok out ∧
      convert 30 "B" ([entryB].map entryCard) = .ok out2 ∧
      out[3]? = some "001  AX  V  C  00:00:00:00 00:00:00:00 00:00:00:00 00:00:00:00" ∧
      out2[3]? = some "001  AX  V  C  00:00:00:00 00:00:00:00 00:00:00:00 00:00:00:00" := by
  obtain ⟨out, out2, h1, h2, h3, h4⟩ := C10_record_times_only_from_durations 30 "A" "B"
    [] entryA [] [] entryB [] rfl rfl
  simp only [List.nil_append] at h1 h2 h3 h4
  refine ⟨out, out2, h1, h2, ?_, ?_⟩
  · have hs : (zeroPadNat 3 ((List.length ([] : List Entry)) + 1) ++ "  AX  V  C  " ++
        nano100_to_time 30 entryA.source_start_ticks ++ " " ++
        nano100_to_time 30 (entryA.source_start_ticks + entryA.duration_ticks) ++ " " ++
        nano100_to_time 30 (recordPosBefore 30 [entryA] (List.length ([] : List Entry))) ++
        " " ++
        nano100_to_time 30 (recordPosBefore 30 [entryA] (List.length ([] : List Entry)) +
          entryA.duration_ticks)) =
        "001  AX  V  C  00:00:00:00 00:00:00:00 00:00:00:00 00:00:00:00" := by decide
    rw [hs] at h3
    simpa using h3
  · have hs : (zeroPadNat 3 ((List.length ([] : List Entry)) + 1) ++ "  AX  V  C  " ++
        nano100_to_time 30 entryB.source_start_ticks ++ " " ++
        nano100_to_time 30 (entryB.source_start_ticks + entryB.duration_ticks) ++ " " ++
        nano100_to_time 30 (recordPosBefore 30 [entryA] (List.length ([] : List Entry))) ++
        " " ++
        nano100_to_time 30 (recordPosBefore 30 [entryA] (List.length ([] : List Entry)) +
          entryA.duration_ticks)) =
        "001  AX  V  C  00:00:00:00 00:00:00:00 00:00:00:00 00:00:00:00" := by decide
    rw [hs] at h4
    simpa using h4

theorem fdiv_coe_ns (m : Nat) :
    Int.fdiv (m : Int) 10000000 = ((m / 10000000 : Nat) : Int) := by
  cases m with
  | zero => simp [Int.fdiv]
  | succ m => rfl

theorem fdiv_coe_day (m : Nat) :
    Int.fdiv (m : Int) 86400 = ((m / 86400 : Nat) : Int) := by
  cases m with
  | zero => simp [Int.fdiv]
  | succ m => rfl

theorem tmod_coe_ns (m : Nat) :
    Int.tmod (m : Int) 10000000 = ((m % 10000000 : Nat) : Int) := rfl

theorem tdiv_coe_ns (m : Nat) :
    Int.tdiv (m : Int) 10000000 = ((m / 10000000 : Nat) : Int) := rfl

theorem emod_coe_day (m : Nat) :
    Int.emod (m : Int) 86400 = ((m % 86400 : Nat) : Int) := rfl

theorem toNat_coe (m : Nat) : ((m : Int)).toNat = m := rfl

theorem colon_len : (":" : String).length = 1 := rfl

theorem colon_data : (":" : String).data = [':'] := rfl

theorem zfill_coe (w x : Nat) : zfill w ((x : Nat) : Int) = zeroPadNat w x := by
  unfold zfill
  rw [if_neg (by omega), toNat_coe]

theorem toString_length_lt24 :
    ∀ h : Nat, h < 24 → (toString h).length = if h < 10 then 1 else 2 := by decide

theorem hh_digits :
    ∀ h : Nat, h < 24 →
      ((if h < 10 then "0" ++ toString h else toString h).data.all Char.isDigit = true ∧
       (if h < 10 then "0" ++ toString h else toString h).data.length = 2) := by decide

theorem zeroPadNat2_spec :
    ∀ x : Nat, x < 100 →
      ((zeroPadNat 2 x).data.all Char.isDigit = true ∧
       (zeroPadNat 2 x).data.length = 2 ∧ (zeroPadNat 2 x).length = 2) := by decide

theorem timedeltaStr_coe (q : Nat) (hq : q < 86400) :
    timedeltaStr ((q : Nat) : Int) =
      toString (q / 3600) ++ ":" ++ zeroPadNat 2 (q % 3600 / 60) ++ ":" ++
        zeroPadNat 2 (q % 60) := by
  have e1 : Int.fdiv ((q : Nat) : Int) 86400 = ((0 : Nat) : Int) := by
    rw [fdiv_coe_day, Nat.div_eq_of_lt hq]
  have e2 : (Int.emod ((q : Nat) : Int) 86400).toNat = q := by
    rw [emod_coe_day, toNat_coe, Nat.mod_eq_of_lt hq]
  simp only [timedeltaStr, e1, e2, Nat.cast_zero, eq_self_iff_true, if_true]

/-- For tick counts below 24 hours, the encoder output decomposes into the
four colon-separated fields: the conditionally zero-padded hour digits, the
two-digit minute and second fields, and the two-digit frame field. -/
theorem nano100_to_time_coe (fr n : Nat) (hn : n < 864000000000) :
    nano100_to_time fr (n : Int) =
      (if n / 10000000 / 3600 < 10 then "0" ++ toString (n / 10000000 / 3600)
        else toString (n / 10000000 / 3600)) ++ ":" ++
      zeroPadNat 2 (n / 10000000 % 3600 / 60) ++ ":" ++
      zeroPadNat 2 (n / 10000000 % 60) ++ ":" ++
      zeroPadNat 2 (fr * (n % 10000000) / 10000000) := by
  have hq : n / 10000000 < 86400 := by omega
  have hh24 : n / 10000000 / 3600 < 24 := by omega
  have hm : n / 10000000 % 3600 / 60 < 100 := by omega
  have hs : n / 10000000 % 60 < 100 := by omega
  simp only [nano100_to_time, fdiv_coe_ns, timedeltaStr_coe (n / 10000000) hq,
    tmod_coe_ns, ← Nat.cast_mul, tdiv_coe_ns, zfill_coe]
  have hTlen : (toString (n / 10000000 / 3600) ++ ":" ++
      zeroPadNat 2 (n / 10000000 % 3600 / 60) ++ ":" ++
      zeroPadNat 2 (n / 10000000 % 60)).length =
      (toString (n / 10000000 / 3600)).length + 6 := by
    simp only [String.length_append, colon_len,
      (zeroPadNat2_spec (n / 10000000 % 3600 / 60) hm).2.2,
      (zeroPadNat2_spec (n / 10000000 % 60) hs).2.2]
  by_cases h10 : n / 10000000 / 3600 < 10
  · have hlt : (toString (n / 10000000 / 3600) ++ ":" ++
        zeroPadNat 2 (n / 10000000 % 3600 / 60) ++ ":" ++
        zeroPadNat 2 (n / 10000000 % 60)).length < 8 := by
      rw [hTlen, toString_length_lt24 _ hh24, if_pos h10]
      omega
    rw [if_pos hlt, if_pos h10]
    simp only [String.append_assoc]
  · have hge : ¬ ((toString (n / 10000000 / 3600) ++ ":" ++
        zeroPadNat 2 (n / 10000000 % 3600 / 60) ++ ":" ++
        zeroPadNat 2 (n / 10000000 % 60)).length < 8) := by
      rw [hTlen, toString_length_lt24 _ hh24, if_neg h10]
      omega
    rw [if_neg hge, if_neg h10]

theorem takeWhile_digits (A R : List Char) (hA : A.all Char.isDigit = true) :
    (A ++ ':' :: R).takeWhile Char.isDigit = A ∧
    (A ++ ':' :: R).dropWhile Char.isDigit = ':' :: R := by
  induction A with
  | nil =>
    have hc : Char.isDigit ':' = false := rfl
    simp [List.takeWhile_cons, List.dropWhile_cons, hc]
  | cons c A ih =>
    rw [List.all_cons, Bool.and_eq_true] at hA
    have h1 := ih hA.2
    simp [List.takeWhile_cons, List.dropWhile_cons, hA.1, h1.1, h1.2]

theorem list_len_two (l : List Char) (h : l.length = 2) : ∃ x y, l = [x, y] := by
  cases l with
  | nil => simp only [List.length_nil] at h; exact absurd h (by decide)
  | cons x l =>
    cases l with
    | nil =>
      simp only [List.length_cons, List.length_nil] at h
      exact absurd h (by decide)
    | cons y l =>
      cases l with
      | nil => exact ⟨x, y, rfl⟩
      | cons z l => simp only [List.length_cons] at h; omega

theorem matches_parts (HH MM SS FF : String)
    (hA : HH.data.all Char.isDigit = true) (hAl : 2 ≤ HH.data.length)
    (hB : MM.data.all Char.isDigit = true) (hBl : MM.data.length = 2)
    (hC : SS.data.all Char.isDigit = true) (hCl : SS.data.length = 2)
    (hD : FF.data.all Char.isDigit = true) (hDl : FF.data.length = 2) :
    matchesTimecodePattern (HH ++ ":" ++ MM ++ ":" ++ SS ++ ":" ++ FF) = true := by
  obtain ⟨b1, b2, hB2⟩ := list_len_two _ hBl
  obtain ⟨c1, c2, hC2⟩ := list_len_two _ hCl
  obtain ⟨d1, d2, hD2⟩ := list_len_two _ hDl
  have hdata : (HH ++ ":" ++ MM ++ ":" ++ SS ++ ":" ++ FF).toList =
      HH.data ++ ':' :: (b1 :: b2 :: ':' :: c1 :: c2 :: ':' :: d1 :: d2 :: []) := by
    show (HH ++ ":" ++ MM ++ ":" ++ SS ++ ":" ++ FF).data = _
    simp [String.data_append, colon_data, hB2, hC2, hD2]
  obtain ⟨ht, hd⟩ := takeWhile_digits HH.data
    (b1 :: b2 :: ':' :: c1 :: c2 :: ':' :: d1 :: d2 :: []) hA
  rw [hB2, List.all_cons, List.all_cons, List.all_nil, Bool.and_eq_true,
    Bool.and_eq_true] at hB
  rw [hC2, List.all_cons, List.all_cons, List.all_nil, Bool.and_eq_true,
    Bool.and_eq_true] at hC
  rw [hD2, List.all_cons, List.all_cons, List.all_nil, Bool.and_eq_true,
    Bool.and_eq_true] at hD
  simp only [matchesTimecodePattern, hdata, ht, hd]
  simp [hB.1, hB.2.1, hC.1, hC.2.1, hD.1, hD.2.1]
  exact hAl

/-- C5 counterexample: at the tick count of exactly 24 hours the integer
second count reaches 86400, the timedelta formatting switches to the
day-prefixed form, and the output no longer matches the timecode pattern. -/
theorem C5_counterexample :
    (0 : Int) ≤ 864000000000 ∧
    nano100_to_time 30 864000000000 = "1 day, 0:00:00:00" ∧
    matchesTimecodePattern (nano100_to_time 30 864000000000) = false := by decide

/-- C5 amended: the encoder is a pure function (deterministic by
construction), and its output matches the timecode pattern for every
non-negative tick count whose whole-second part stays below 24 hours, at
every frame rate at most 100 (in particular the default 30); at or beyond
24 hours the hour field overflows into a day-count prefix and the pattern
fails. -/
theorem C5_amended_pattern_below_24h (fr : Nat) (t : Int) (hfr : fr ≤ 100)
    (h0 : 0 ≤ t) (h1 : t < 864000000000) :
    matchesTimecodePattern (nano100_to_time fr t) = true := by
  obtain ⟨n, rfl⟩ : ∃ n : Nat, t = (n : Int) := ⟨t.toNat, (Int.toNat_of_nonneg h0).symm⟩
  have hn : n < 864000000000 := by exact_mod_cast h1
  rw [nano100_to_time_coe fr n hn]
  have hh24 : n / 10000000 / 3600 < 24 := by omega
  have hm : n / 10000000 % 3600 / 60 < 100 := by omega
  have hs : n / 10000000 % 60 < 100 := by omega
  have hf : fr * (n % 10000000) / 10000000 < 100 := by
    have h3 : fr * (n % 10000000) < 100 * 10000000 := by
      calc fr * (n % 10000000) ≤ 100 * (n % 10000000) :=
            Nat.mul_le_mul_right _ hfr
        _ < 100 * 10000000 := by omega
    exact Nat.div_lt_of_lt_mul h3
  exact matches_parts _ _ _ _
    (hh_digits _ hh24).1 (le_of_eq ((hh_digits _ hh24).2).symm)
    (zeroPadNat2_spec _ hm).1 (zeroPadNat2_spec _ hm).2.1
    (zeroPadNat2_spec _ hs).1 (zeroPadNat2_spec _ hs).2.1
    (zeroPadNat2_spec _ hf).1 (zeroPadNat2_spec _ hf).2.1

/-- Witness for C5 amended at one second and the default frame rate. -/
theorem C5_amended_pattern_witness :
    (30 : Nat) ≤ 100 ∧ (0 : Int) ≤ 10000000 ∧ (10000000 : Int) < 864000000000 ∧
    matchesTimecodePattern (nano100_to_time 30 10000000) = true :=
  ⟨by decide, by decide, by decide,
    C5_amended_pattern_below_24h 30 10000000 (by decide) (by decide) (by decide)⟩

/-- C6: the encoder maps zero ticks to 00:00:00:00 at every frame rate. -/
theorem C6_encode_zero_is_all_zeros (fr : Nat) :
    nano100_to_time fr 0 = "00:00:00:00" := by
  have h2 : Int.tmod 0 10000000 = 0 := rfl
  simp only [nano100_to_time, h2, mul_zero, Int.zero_tdiv]
  decide


end Msvbp2edl
